import Mathlib

/-!
Verification of the kaon-lang core value model, opcode tables, stack and lexer.

The Rust sources are shallowly embedded:
  * `f64` is modelled by `F64`: a finite value is an exact rational, plus NaN
    and the two infinities.  The operations the development needs (equality,
    `%` (fmod), negation, the saturating casts `as i64` / `as u32`) are exact
    in IEEE-754, so the model is faithful for them; rounding of `+` is not
    modelled (no proof here depends on it).
  * Rust panics (`unreachable!`, `expect`, out-of-bounds indexing) are made
    explicit with the `VmResult.panicked` constructor; a structured runtime
    error would be `VmResult.err`.
  * `HashMap`s are modelled as association lists; the derived `PartialEq` of a
    hash map (same length, and every key of the left maps to an equal value in
    the right) is translated accordingly.
-/

/-- Model of Rust `f64`: exact rationals for finite values, plus NaN and
the two infinities. -/
inductive F64 where
  | finite (q : ℚ)
  | nan
  | inf (neg : Bool)
deriving DecidableEq, Repr

/-- Truncation of a rational toward zero (the rounding used by `fmod` and by
Rust `as` casts from `f64`). -/
def ratTrunc (q : ℚ) : Int :=
  if q < 0 then -(⌊-q⌋) else ⌊q⌋

namespace F64

/-- IEEE-754 equality (`==` on `f64`): NaN compares unequal to everything,
including itself; infinities compare equal when their signs agree. -/
def beq : F64 → F64 → Bool
  | .finite a, .finite b => a == b
  | .inf s, .inf t => s == t
  | _, _ => false

/-- IEEE-754 addition on the model (finite arithmetic is exact here;
rounding is not modelled). -/
def add : F64 → F64 → F64
  | .nan, _ => .nan
  | _, .nan => .nan
  | .inf s, .inf t => if s = t then .inf s else .nan
  | .inf s, .finite _ => .inf s
  | .finite _, .inf t => .inf t
  | .finite a, .finite b => .finite (a + b)

/-- IEEE-754 negation (`-x` on `f64`). -/
def neg : F64 → F64
  | .finite q => .finite (-q)
  | .nan => .nan
  | .inf s => .inf (!s)

/-- `x % y` on `f64` (C `fmod`): `x - trunc(x/y)*y`; NaN for a NaN operand, an
infinite dividend or a zero divisor; `x` itself for a finite `x` and an
infinite divisor.  fmod is exact in IEEE-754. -/
def fmod : F64 → F64 → F64
  | .nan, _ => .nan
  | _, .nan => .nan
  | .inf _, _ => .nan
  | .finite a, .inf _ => .finite a
  | .finite a, .finite b =>
    if b = 0 then .nan else .finite (a - b * (ratTrunc (a / b) : ℚ))

/-- Largest `i64`. -/
def I64_MAX : Int := 9223372036854775807

/-- Smallest `i64`. -/
def I64_MIN : Int := -9223372036854775808

/-- Rust `x as i64` on an `f64`: truncate toward zero and saturate to the
`i64` range; NaN becomes 0. -/
def toI64 : F64 → Int
  | .nan => 0
  | .inf neg => if neg then I64_MIN else I64_MAX
  | .finite q =>
    let t := ratTrunc q
    if t < I64_MIN then I64_MIN else if I64_MAX < t then I64_MAX else t

/-- Largest `u32`, as an integer. -/
def U32_MAX : Int := 4294967295

/-- Rust `x as u32` on an `f64`: truncate toward zero and saturate to the
`u32` range; NaN and every negative value become 0. -/
def toU32 : F64 → Nat
  | .nan => 0
  | .inf neg => if neg then 0 else 4294967295
  | .finite q =>
    let t := ratTrunc q
    if t < 0 then 0 else if U32_MAX < t then 4294967295 else t.toNat

end F64

/-- Result of running a piece of Rust code that may panic the host process
(`unreachable!`, `expect`, slice indexing) or raise a structured runtime
error. -/
inductive VmResult (α : Type) where
  | ok (v : α)
  | err (msg : String)
  | panicked (msg : String)
deriving DecidableEq, Repr

/-- The message of `unreachable!()` without arguments. -/
def unreachableMsg : String := "internal error: entered unreachable code"

/-- `src/common/value.rs` `Captured`: how a closure obtains an upvalue. -/
inductive Captured where
  | Local (slot : Nat)
  | NonLocal (slot : Nat)
deriving DecidableEq, Repr

mutual
/-- `src/common/value.rs` `Value`: the tagged union of Kaon runtime values. -/
inductive Value where
  | Number (n : F64)
  | Boolean (b : Bool)
  | String (s : String)
  | List (xs : List Value)
  | Tuple (xs : List Value)
  | Map (m : ValueMap)
  | NativeFun (f : NativeFunV)
  | Function (f : FunctionV)
  | Closure (c : ClosureV)
  | Class (c : ClassV)
  | Instance (i : InstanceV)
  | Constructor (c : ConstructorV)
  | InstanceMethod (m : InstanceMethodV)
  | External
  | Unit
  | Nil

/-- `ValueMap`: a `HashMap<String, Value>` modelled as an association list. -/
inductive ValueMap where
  | mk (data : List (String × Value))

/-- `NativeFun`: name, arity, variadic flag (the host function pointer itself
is not representable and carries no observable structure). -/
inductive NativeFunV where
  | mk (name : String) (arity : Nat) (varidic : Bool)

/-- `Function`: name, arity, bytecode chunk (opcodes and constants) and the
capture descriptors.  Debug info is omitted (no claim observes it). -/
inductive FunctionV where
  | mk (name : String) (arity : Nat) (chunkOpcodes : List Nat)
      (chunkConstants : List Value) (captures : List Captured)

/-- `Upvalue`: a captured value, its stack location and an optional link. -/
inductive Upvalue where
  | mk (value : Value) (location : Nat) (next : Option Upvalue)

/-- `Closure`: a function together with its captured upvalues. -/
inductive ClosureV where
  | mk (function : FunctionV) (captures : List Upvalue)

/-- `Class`: name, methods, constructors, fields and optional parent. -/
inductive ClassV where
  | mk (name : String) (methods : List (String × Value))
      (constructors : List (String × ConstructorV))
      (fields : List (String × Value)) (superClass : Option ClassV)

/-- `Instance`: a class reference and a field table. -/
inductive InstanceV where
  | mk (class_ : ClassV) (fields : List (String × Value))

/-- `Constructor`: name, closure and optional class back-reference. -/
inductive ConstructorV where
  | mk (name : String) (closure : ClosureV) (class_ : Option ClassV)

/-- `InstanceMethod`: carries only a name. -/
inductive InstanceMethodV where
  | mk (name : String)
end

/-- Name of a `Function`. -/
def FunctionV.name : FunctionV → String
  | .mk n _ _ _ _ => n

/-- Arity of a `Function`. -/
def FunctionV.arity : FunctionV → Nat
  | .mk _ a _ _ _ => a

/-- Capture descriptors of a `Function`. -/
def FunctionV.captures : FunctionV → List Captured
  | .mk _ _ _ _ c => c

/-- The function wrapped by a `Closure`. -/
def ClosureV.function : ClosureV → FunctionV
  | .mk f _ => f

/-- The captured upvalues of a `Closure`. -/
def ClosureV.captures : ClosureV → List Upvalue
  | .mk _ c => c

/-- The class of an `Instance`. -/
def InstanceV.class_ : InstanceV → ClassV
  | .mk c _ => c

/-- The field table of an `Instance`. -/
def InstanceV.fields : InstanceV → List (String × Value)
  | .mk _ f => f

/-- Name of a `Class`. -/
def ClassV.name : ClassV → String
  | .mk n _ _ _ _ => n

/-- Name of a `NativeFun`. -/
def NativeFunV.name : NativeFunV → String
  | .mk n _ _ => n

/-- Name of a `Constructor`. -/
def ConstructorV.name : ConstructorV → String
  | .mk n _ _ => n

/-- Name of an `InstanceMethod`. -/
def InstanceMethodV.name : InstanceMethodV → String
  | .mk n => n

/-- Entries of a `ValueMap`. -/
def ValueMap.data : ValueMap → List (String × Value)
  | .mk d => d

/-- `impl PartialEq for Function`: compares by name only. -/
def functionEq (a b : FunctionV) : Bool :=
  a.name == b.name

/-- `impl PartialEq for NativeFun`: compares by name only. -/
def nativeFunEq (a b : NativeFunV) : Bool :=
  a.name == b.name

/-- `impl PartialEq for Instance`: compares by class name only. -/
def instanceEq (a b : InstanceV) : Bool :=
  a.class_.name == b.class_.name

/-- Derived `PartialEq` for `InstanceMethod` (a single `name` field). -/
def instanceMethodEq (a b : InstanceMethodV) : Bool :=
  a.name == b.name

mutual
/-- The derived `PartialEq` of `Value`, with the hand-written leaf impls:
`ValueMap` equality is constantly `false`, `Function` and `NativeFun` compare
by name, `Instance` by class name, `External` is constantly `false`. -/
def valueEq : Value → Value → Bool
  | .Number a, .Number b => F64.beq a b
  | .Boolean a, .Boolean b => a == b
  | .String a, .String b => a == b
  | .List a, .List b => valueListEq a b
  | .Tuple a, .Tuple b => valueListEq a b
  | .Map _, .Map _ => false
  | .NativeFun a, .NativeFun b => nativeFunEq a b
  | .Function a, .Function b => functionEq a b
  | .Closure a, .Closure b => closureEq a b
  | .Class a, .Class b => classEq a b
  | .Instance a, .Instance b => instanceEq a b
  | .Constructor a, .Constructor b => constructorEq a b
  | .InstanceMethod a, .InstanceMethod b => instanceMethodEq a b
  | .External, .External => false
  | .Unit, .Unit => true
  | .Nil, .Nil => true
  | _, _ => false
termination_by a b => sizeOf a + sizeOf b
decreasing_by all_goals (simp_wf; try omega)

/-- Derived `Vec<Value>` equality: pointwise, same length. -/
def valueListEq : List Value → List Value → Bool
  | [], [] => true
  | a :: ta, b :: tb => valueEq a b && valueListEq ta tb
  | _, _ => false
termination_by a b => sizeOf a + sizeOf b
decreasing_by all_goals (simp_wf; try omega)

/-- Derived `PartialEq` for `Upvalue` (value, location, next). -/
def upvalueEq : Upvalue → Upvalue → Bool
  | .mk v l n, .mk v' l' n' => valueEq v v' && (l == l') && optUpvalueEq n n'
termination_by a b => sizeOf a + sizeOf b
decreasing_by all_goals (simp_wf; try omega)

/-- Derived `Option<Box<Upvalue>>` equality. -/
def optUpvalueEq : Option Upvalue → Option Upvalue → Bool
  | none, none => true
  | some a, some b => upvalueEq a b
  | _, _ => false
termination_by a b => sizeOf a + sizeOf b
decreasing_by all_goals (simp_wf; try omega)

/-- Derived `Vec<Upvalue>` equality. -/
def upvalueListEq : List Upvalue → List Upvalue → Bool
  | [], [] => true
  | a :: ta, b :: tb => upvalueEq a b && upvalueListEq ta tb
  | _, _ => false
termination_by a b => sizeOf a + sizeOf b
decreasing_by all_goals (simp_wf; try omega)

/-- Derived `PartialEq` for `Closure` (function by name, captures deep). -/
def closureEq : ClosureV → ClosureV → Bool
  | .mk f c, .mk f' c' => functionEq f f' && upvalueListEq c c'
termination_by a b => sizeOf a + sizeOf b
decreasing_by all_goals (simp_wf; try omega)

/-- Derived `PartialEq` for `Class` (all fields; map fields use the std
hash-map equality: equal lengths and every left entry matched on the right). -/
def classEq : ClassV → ClassV → Bool
  | .mk n m c f s, .mk n' m' c' f' s' =>
    (n == n') && ((m.length == m'.length) && valueMapSub m m')
      && ((c.length == c'.length) && constructorMapSub c c')
      && ((f.length == f'.length) && valueMapSub f f')
      && optClassEq s s'
termination_by a b => sizeOf a + sizeOf b
decreasing_by all_goals (simp_wf; try omega)

/-- Derived `Option<Rc<Class>>` equality. -/
def optClassEq : Option ClassV → Option ClassV → Bool
  | none, none => true
  | some a, some b => classEq a b
  | _, _ => false
termination_by a b => sizeOf a + sizeOf b
decreasing_by all_goals (simp_wf; try omega)

/-- Std hash-map equality, inclusion half: every left entry finds an equal
value under its key on the right. -/
def valueMapSub : List (String × Value) → List (String × Value) → Bool
  | [], _ => true
  | (k, v) :: rest, b => valueMapFind k v b && valueMapSub rest b
termination_by a b => sizeOf a + sizeOf b
decreasing_by all_goals (simp_wf; try omega)

/-- `other.get(key).map_or(false, |w| value == w)` on an association list. -/
def valueMapFind (k : String) (v : Value) : List (String × Value) → Bool
  | [] => false
  | (k', w) :: rest => if k' == k then valueEq v w else valueMapFind k v rest
termination_by l => sizeOf v + sizeOf l
decreasing_by all_goals (simp_wf; try omega)

/-- Std hash-map equality on `HashMap<String, Constructor>`, inclusion half. -/
def constructorMapSub :
    List (String × ConstructorV) → List (String × ConstructorV) → Bool
  | [], _ => true
  | (k, v) :: rest, b => constructorMapFind k v b && constructorMapSub rest b
termination_by a b => sizeOf a + sizeOf b
decreasing_by all_goals (simp_wf; try omega)

/-- Constructor-map lookup-and-compare. -/
def constructorMapFind (k : String) (v : ConstructorV) :
    List (String × ConstructorV) → Bool
  | [] => false
  | (k', w) :: rest => if k' == k then constructorEq v w else constructorMapFind k v rest
termination_by l => sizeOf v + sizeOf l
decreasing_by all_goals (simp_wf; try omega)

/-- Derived `PartialEq` for `Constructor` (name, closure, class). -/
def constructorEq : ConstructorV → ConstructorV → Bool
  | .mk n c cl, .mk n' c' cl' => (n == n') && closureEq c c' && optClassEq cl cl'
termination_by a b => sizeOf a + sizeOf b
decreasing_by all_goals (simp_wf; try omega)
end

/-- Variant discriminant of a `Value` (which arm of the enum it is). -/
def Value.tag : Value → Nat
  | .Number _ => 0
  | .Boolean _ => 1
  | .String _ => 2
  | .List _ => 3
  | .Tuple _ => 4
  | .Map _ => 5
  | .NativeFun _ => 6
  | .Function _ => 7
  | .Closure _ => 8
  | .Class _ => 9
  | .Instance _ => 10
  | .Constructor _ => 11
  | .InstanceMethod _ => 12
  | .External => 13
  | .Unit => 14
  | .Nil => 15

/-- `impl Add for Value`: numbers add, strings concatenate, tuples
concatenate; every other combination hits
`unreachable!("Cannot add non-numbers and non-strings")`, a host panic. -/
def Value.add : Value → Value → VmResult Value
  | .Number lhs, .Number rhs => .ok (.Number (F64.add lhs rhs))
  | .String lhs, .String rhs => .ok (.String (lhs ++ rhs))
  | .Tuple tuple, .Tuple other => .ok (.Tuple (tuple ++ other))
  | _, _ => .panicked ("Cannot add non-numbers and non-strings")

/-- `impl Sub for Value`: numbers only, otherwise `unreachable!()`. -/
def Value.sub : Value → Value → VmResult Value
  | .Number lhs, .Number rhs => .ok (.Number (F64.add lhs (F64.neg rhs)))
  | _, _ => .panicked unreachableMsg

/-- `impl Neg for Value`: numbers only, otherwise `unreachable!()`. -/
def Value.neg : Value → VmResult Value
  | .Number val => .ok (.Number (F64.neg val))
  | _ => .panicked unreachableMsg

/-- `impl Not for Value`: negates a `Boolean`; any other value produces
`Boolean(false)` (the source comments "this should never be reached"). -/
def Value.not : Value → Value
  | .Boolean val => .Boolean (!val)
  | _ => .Boolean false

/-- `impl From<Value> for bool` (the truthiness conversion the VM uses):
defined only on `Boolean`; every other variant hits `unreachable!()`. -/
def Value.toBool : Value → VmResult Bool
  | .Boolean val => .ok val
  | _ => .panicked unreachableMsg

/-- `impl From<Value> for f64`: defined only on `Number`. -/
def Value.toF64 : Value → VmResult F64
  | .Number val => .ok val
  | _ => .panicked unreachableMsg

/-- `impl Index<f64> for Value`: a `List` is indexed at `index as u32 as
usize` (the saturating float-to-int cast); any other receiver hits
`unreachable!()`.  An out-of-range converted index is a slice-indexing
panic in the source. -/
def Value.indexF64 : Value → F64 → VmResult Value
  | .List list, index =>
    match list.get? (F64.toU32 index) with
    | some v => .ok v
    | none => .panicked ("index out of bounds")
  | _, _ => .panicked unreachableMsg

/-- The two shapes the `Display` impl can write for a `Value::Number`. -/
inductive NumberForm where
  | intForm (n : Int)
  | floatForm (x : F64)
deriving DecidableEq, Repr

/-- The `Value::Number` arm of `impl fmt::Display for Value`:
`match num % 1.0 { val if val == 0.0 => write (num as i64), _ => write num }`. -/
def displayNumber (num : F64) : NumberForm :=
  if F64.beq (F64.fmod num (.finite 1)) (.finite 0) then .intForm (F64.toI64 num)
  else .floatForm num

/-- `Function::new` (the bytecode chunk is passed split into its opcode and
constant components). -/
def FunctionV.new (name : String) (arity : Nat) (chunkOpcodes : List Nat)
    (chunkConstants : List Value) (captures : List Captured) : FunctionV :=
  .mk name arity chunkOpcodes chunkConstants captures

/-- `Function::empty`: name `<script>`, arity 0, empty chunk, no captures. -/
def FunctionV.empty : FunctionV :=
  FunctionV.new ("<script>") 0 [] [] []

/-- `Closure::wrap`: wraps a function; the capture list starts EMPTY no
matter how many capture descriptors the function has. -/
def ClosureV.wrap (function : FunctionV) : ClosureV :=
  .mk function []

/-- `Closure::empty`: wraps `Function::empty` with no captures. -/
def ClosureV.empty : ClosureV :=
  .mk FunctionV.empty []

/-- `FnvHashMap::<String, Value>::get`, on the association-list model. -/
def hashMapGet (m : List (String × Value)) (name : String) : Option Value :=
  match m with
  | [] => none
  | (k, v) :: rest => if k == name then some v else hashMapGet rest name

/-- `Instance::new`: empty field table. -/
def InstanceV.new (class_ : ClassV) : InstanceV :=
  .mk class_ []

/-- `Instance::get_field`:
`self.fields.get(name).cloned().unwrap_or(Value::Nil)`. -/
def InstanceV.get_field (i : InstanceV) (name : String) : Value :=
  (hashMapGet i.fields name).getD .Nil

/-- `src/stack.rs` `Slot`: a newtype around the stack's element type (the
`Data` type it wraps is not part of the tree, so it is a parameter). -/
structure Slot (α : Type) where
  data : α
deriving DecidableEq, Repr

/-- `src/stack.rs` `Stack`: a `Vec<Slot>`.  A Rust `Vec` pushes, pops and
peeks at its END, so the model takes the head of the list as the top. -/
structure Stack (α : Type) where
  stack : List (Slot α)
deriving DecidableEq, Repr

/-- `Stack::new`. -/
def Stack.new (α : Type) : Stack α :=
  ⟨[]⟩

/-- `Stack::pop`: `self.stack.pop().expect("Stack should not be empty").0`;
a host panic on an empty stack.  Returns the popped datum and the rest. -/
def Stack.pop {α : Type} : Stack α → VmResult (α × Stack α)
  | ⟨[]⟩ => .panicked ("Stack should not be empty")
  | ⟨s :: rest⟩ => .ok (s.data, ⟨rest⟩)

/-- `Stack::push`. -/
def Stack.push {α : Type} (st : Stack α) (slot : Slot α) : Stack α :=
  ⟨slot :: st.stack⟩

/-- `Stack::peek`: `self.stack[self.stack.len() - 1].0.clone()`; index
underflow / out-of-bounds (a host panic) on an empty stack. -/
def Stack.peek {α : Type} : Stack α → VmResult α
  | ⟨[]⟩ => .panicked ("index out of bounds")
  | ⟨s :: _⟩ => .ok s.data

/-- `src/common/opcode.rs` `Opcode` — the richer table, `#[repr(u8)]` with
no explicit discriminants, so the encoding is the declaration position. -/
inductive Opcode where
  | Const
  | Add
  | Sub
  | Mul
  | Div
  | Mod
  | Negate
  | Equal
  | NotEqual
  | Gte
  | Lte
  | Gt
  | Lt
  | Not
  | Or
  | And
  | DefGlobal
  | SetGlobal
  | GetGlobal
  | LoadLocal
  | SaveLocal
  | Jump
  | Jeq
  | Print
  | Call
  | Del
  | List
  | Loop
  | Halt
deriving DecidableEq, Repr

/-- The `repr(u8)` discriminant of the richer `Opcode` — what `op as u8`
yields (Rust assigns 0 to the first variant and increments by one). -/
def Opcode.toU8 : Opcode → Nat
  | .Const => 0
  | .Add => 1
  | .Sub => 2
  | .Mul => 3
  | .Div => 4
  | .Mod => 5
  | .Negate => 6
  | .Equal => 7
  | .NotEqual => 8
  | .Gte => 9
  | .Lte => 10
  | .Gt => 11
  | .Lt => 12
  | .Not => 13
  | .Or => 14
  | .And => 15
  | .DefGlobal => 16
  | .SetGlobal => 17
  | .GetGlobal => 18
  | .LoadLocal => 19
  | .SaveLocal => 20
  | .Jump => 21
  | .Jeq => 22
  | .Print => 23
  | .Call => 24
  | .Del => 25
  | .List => 26
  | .Loop => 27
  | .Halt => 28

namespace SrcOpcode

/-- `src/opcode.rs` `Opcode` — the simpler table. -/
inductive Opcode where
  | Const
  | Add
  | Sub
  | Mul
  | Div
  | Negate
  | SetGlobal
  | Halt
deriving DecidableEq, Repr

/-- `impl From<Opcode> for u8` in `src/opcode.rs` (the explicit match). -/
def Opcode.toU8 : Opcode → Nat
  | .Const => 0
  | .Add => 1
  | .Sub => 2
  | .Mul => 3
  | .Div => 4
  | .Negate => 5
  | .SetGlobal => 6
  | .Halt => 7

end SrcOpcode

/-- Token types.  `compiler/token.rs` is not in the tree; this is modelled
from the in-repo lexer test (`TokenType::Symbol(String)`, `Number`, `Eof`)
and from the constructors the lexer calls (`symbol`, `keyword`, `comment`,
`Id`, `String`, `Newline`). -/
inductive TokenType where
  | Symbol (s : String)
  | Keyword (s : String)
  | Comment (s : String)
  | Id
  | Number
  | String
  | Newline
  | Eof
deriving DecidableEq, Repr

/-- A token: its text value and its type.  Spans are not modelled. -/
structure Token where
  value : String
  typ : TokenType
deriving DecidableEq, Repr

/-- The lexer error kinds `Lexer::tokenize` can raise. -/
inductive LexErrorKind where
  | UnterminatedString
  | UnexpectedToken
deriving DecidableEq, Repr

/-- `Lexer::is_alpha`, on one character: ASCII letters and underscore
(`string.bytes().all(|c| matches!(c, b'a'..=b'z'|b'A'..=b'Z'|b'_'))`). -/
def isAlphaChar (c : Char) : Bool :=
  ('a' ≤ c && c ≤ 'z') || ('A' ≤ c && c ≤ 'Z') || c = '_'

/-- `Lexer::is_number`, on one character: an ASCII digit. -/
def isDigitChar (c : Char) : Bool :=
  c.isDigit

/-- `Lexer::keyword`: the identifiers that become keyword tokens. -/
def isKeyword (s : String) : Bool :=
  [("true" : String), "false", "is", "isnt", "and", "or", "if", "else",
    "var", "con", "loop", "while", "break", "fun"].contains s


/-- A `dropWhile` never lengthens a list (helper for termination). -/
theorem length_dropWhile_le (p : Char → Bool) (l : List Char) :
    (l.dropWhile p).length ≤ l.length :=
  List.Sublist.length_le (List.dropWhile_sublist p)

/-- `Lexer::number`, fraction part: if the input starts with `.`, consume it
and the following digits. -/
def lexFrac : List Char → List Char × List Char
  | '.' :: r => ('.' :: r.takeWhile isDigitChar, r.dropWhile isDigitChar)
  | rest => ([], rest)

/-- `Lexer::number`, exponent part: if the input starts with `e`, consume it,
an optional sign, and the following digits. -/
def lexExp : List Char → List Char × List Char
  | 'e' :: '-' :: r2 => ('e' :: '-' :: r2.takeWhile isDigitChar, r2.dropWhile isDigitChar)
  | 'e' :: '+' :: r2 => ('e' :: '+' :: r2.takeWhile isDigitChar, r2.dropWhile isDigitChar)
  | 'e' :: r => ('e' :: r.takeWhile isDigitChar, r.dropWhile isDigitChar)
  | rest => ([], rest)

/-- `Lexer::number` after the first, already consumed digit: the remaining
digits, then the optional fraction, then the optional exponent.  Returns the
consumed characters and the rest of the input. -/
def lexNumberTail (cs : List Char) : List Char × List Char :=
  let ds := cs.takeWhile isDigitChar
  let rest0 := cs.dropWhile isDigitChar
  let fr := lexFrac rest0
  let ex := lexExp fr.2
  (ds ++ fr.1 ++ ex.1, ex.2)

/-- `lexFrac` never lengthens its input. -/
theorem lexFrac_length_le (cs : List Char) : (lexFrac cs).2.length ≤ cs.length := by
  unfold lexFrac
  split
  · exact le_trans (length_dropWhile_le _ _) (Nat.le_succ _)
  · exact le_refl _

/-- `lexExp` never lengthens its input. -/
theorem lexExp_length_le (cs : List Char) : (lexExp cs).2.length ≤ cs.length := by
  unfold lexExp
  split
  · exact le_trans (length_dropWhile_le _ _) (le_trans (Nat.le_succ _) (Nat.le_succ _))
  · exact le_trans (length_dropWhile_le _ _) (le_trans (Nat.le_succ _) (Nat.le_succ _))
  · exact le_trans (length_dropWhile_le _ _) (Nat.le_succ _)
  · exact le_refl _

/-- The rest returned by `lexNumberTail` is no longer than the input. -/
theorem lexNumberTail_length_le (cs : List Char) :
    (lexNumberTail cs).2.length ≤ cs.length := by
  unfold lexNumberTail
  exact le_trans (lexExp_length_le _)
    (le_trans (lexFrac_length_le _) (length_dropWhile_le _ _))

set_option linter.unusedVariables false in
/-- `Lexer::tokenize` (`src/compiler/lexer.rs`), modelled on the character
list of the source text, producing the token list (ending in the eof token)
or the first syntax error.  Note the `<` and `<=` arms: the token VALUE is
`<` (resp. `<=`) but the token TYPE handed to `TokenType::symbol` is `>`
(resp. `>=`), exactly as in the source. -/
def tokenize : List Char → Except LexErrorKind (List Token)
  | [] => .ok [Token.mk ("<eof>") .Eof]
  | '+' :: rest => (tokenize rest).map (Token.mk ("+") (.Symbol ("+")) :: ·)
  | '-' :: rest => (tokenize rest).map (Token.mk ("-") (.Symbol ("-")) :: ·)
  | '*' :: rest => (tokenize rest).map (Token.mk ("*") (.Symbol ("*")) :: ·)
  | '(' :: rest => (tokenize rest).map (Token.mk ("(") (.Symbol ("(")) :: ·)
  | ')' :: rest => (tokenize rest).map (Token.mk (")") (.Symbol (")")) :: ·)
  | '\x7b' :: rest => (tokenize rest).map (Token.mk ("\x7b") (.Symbol ("\x7b")) :: ·)
  | '\x7d' :: rest => (tokenize rest).map (Token.mk ("\x7d") (.Symbol ("\x7d")) :: ·)
  | '[' :: rest => (tokenize rest).map (Token.mk ("[") (.Symbol ("[")) :: ·)
  | ']' :: rest => (tokenize rest).map (Token.mk ("]") (.Symbol ("]")) :: ·)
  | ',' :: rest => (tokenize rest).map (Token.mk (",") (.Symbol (",")) :: ·)
  | '.' :: rest => (tokenize rest).map (Token.mk (".") (.Symbol (".")) :: ·)
  | '=' :: rest => (tokenize rest).map (Token.mk ("=") (.Symbol ("=")) :: ·)
  | '/' :: '/' :: rest =>
    (tokenize (rest.dropWhile (fun c => c != '\n'))).map
      (Token.mk (String.mk (rest.takeWhile (fun c => c != '\n'))) (.Comment ("//")) :: ·)
  | '/' :: rest => (tokenize rest).map (Token.mk ("/") (.Symbol ("/")) :: ·)
  | '>' :: '=' :: rest => (tokenize rest).map (Token.mk (">=") (.Symbol (">=")) :: ·)
  | '>' :: rest => (tokenize rest).map (Token.mk (">") (.Symbol (">")) :: ·)
  | '<' :: '=' :: rest => (tokenize rest).map (Token.mk ("<=") (.Symbol (">=")) :: ·)
  | '<' :: rest => (tokenize rest).map (Token.mk ("<") (.Symbol (">")) :: ·)
  | '%' :: rest => (tokenize rest).map (Token.mk ("%") (.Symbol ("%")) :: ·)
  | '!' :: rest => (tokenize rest).map (Token.mk ("!") (.Symbol ("!")) :: ·)
  | '\n' :: rest =>
    (tokenize (rest.dropWhile (fun c => c == '\n'))).map (Token.mk ("\\n") .Newline :: ·)
  | '"' :: rest =>
    match h : rest.dropWhile (fun c => c != '"') with
    | [] => .error .UnterminatedString
    | _ :: tail =>
      (tokenize tail).map
        (Token.mk (String.mk (rest.takeWhile (fun c => c != '"'))) .String :: ·)
  | c :: rest =>
    if isAlphaChar c then
      let name := String.mk (c :: rest.takeWhile isAlphaChar)
      let typ := if isKeyword name then TokenType.Keyword name else TokenType.Id
      (tokenize (rest.dropWhile isAlphaChar)).map (Token.mk name typ :: ·)
    else if isDigitChar c then
      let nt := lexNumberTail rest
      (tokenize nt.2).map (Token.mk (String.mk (c :: nt.1)) .Number :: ·)
    else if c.isWhitespace then
      tokenize rest
    else
      .error .UnexpectedToken
termination_by cs => cs.length
decreasing_by
  all_goals simp_wf
  all_goals
    first
    | omega
    | (have hlen := length_dropWhile_le (fun c => c != '\n') rest; omega)
    | (have hlen := length_dropWhile_le (fun c => c == '\n') rest; omega)
    | (have hlen := length_dropWhile_le isAlphaChar rest; omega)
    | (have hlen := lexNumberTail_length_le rest; omega)
    | (have hlen := length_dropWhile_le (fun c => c != '"') rest;
       rw [h] at hlen; simp only [List.length_cons] at hlen; omega)

/-- Modelled from the spec: the operand combinations for which it says the
binary `+` is defined (two Numbers, two Strings, two Tuples).  Compared
against `Value.add` from the source. -/
def specAddDefined : Value → Value → Bool
  | .Number _, .Number _ => true
  | .String _, .String _ => true
  | .Tuple _, .Tuple _ => true
  | _, _ => false

/-- Truncation agrees with the integer on integer casts. -/
theorem ratTrunc_intCast (n : Int) : ratTrunc (n : ℚ) = n := by
  unfold ratTrunc
  by_cases h : (n : ℚ) < 0
  · rw [if_pos h, ← Int.cast_neg, Int.floor_intCast]
    omega
  · rw [if_neg h, Int.floor_intCast]

/-- On a rational with denominator 1, truncation returns the numerator. -/
theorem ratTrunc_den_one (q : ℚ) (h : q.den = 1) : ratTrunc q = q.num := by
  have hq : (q.num : ℚ) = q := by
    exact_mod_cast Rat.den_eq_one_iff q |>.mp h
  calc ratTrunc q = ratTrunc (q.num : ℚ) := by rw [hq]
    _ = q.num := ratTrunc_intCast q.num

/-- A rational equals its truncation exactly when it is an integer
(denominator 1): the code's "fractional part is zero" test. -/
theorem sub_ratTrunc_eq_zero_iff (q : ℚ) :
    q - (ratTrunc q : ℚ) = 0 ↔ q.den = 1 := by
  constructor
  · intro h
    have hq : q = ((ratTrunc q : Int) : ℚ) := by linarith
    rw [hq]
    exact Rat.den_intCast _
  · intro h
    rw [ratTrunc_den_one q h]
    have hq : (q.num : ℚ) = q := by
      exact_mod_cast Rat.den_eq_one_iff q |>.mp h
    linarith

/-- `x % 1.0` on a finite `f64` is `x` minus its truncation. -/
theorem fmod_one (q : ℚ) :
    F64.fmod (.finite q) (.finite 1) = .finite (q - (ratTrunc q : ℚ)) := by
  simp [F64.fmod]

/-- The `as i64` cast of a finite `f64` is its truncation clamped to the
`i64` range. -/
theorem toI64_finite (q : ℚ) :
    F64.toI64 (.finite q) = max F64.I64_MIN (min F64.I64_MAX (ratTrunc q)) := by
  simp only [F64.toI64]
  unfold F64.I64_MIN F64.I64_MAX
  simp only [max_def, min_def]
  split_ifs <;> omega

/-- The `Number` display arm on a finite value: integer form (with the
saturating cast) exactly when the rational is an integer. -/
theorem displayNumber_finite (q : ℚ) :
    displayNumber (.finite q) =
      if q.den = 1 then .intForm (max F64.I64_MIN (min F64.I64_MAX q.num))
      else .floatForm (.finite q) := by
  unfold displayNumber
  rw [fmod_one]
  by_cases h : q.den = 1
  · rw [if_pos h]
    have h0 : q - (ratTrunc q : ℚ) = 0 := (sub_ratTrunc_eq_zero_iff q).mpr h
    have hbeq : F64.beq (.finite (q - (ratTrunc q : ℚ))) (.finite 0) = true := by
      simp [F64.beq, h0]
    rw [if_pos hbeq, toI64_finite, ratTrunc_den_one q h]
  · rw [if_neg h]
    have h0 : ¬ (q - (ratTrunc q : ℚ) = 0) :=
      fun hc => h ((sub_ratTrunc_eq_zero_iff q).mp hc)
    have hbeq : F64.beq (.finite (q - (ratTrunc q : ℚ))) (.finite 0) = false := by
      simp [F64.beq, h0]
    rw [hbeq]
    simp

/-- The `as u32` cast of a negative finite `f64` saturates to 0. -/
theorem toU32_neg (q : ℚ) (hq : q < 0) : F64.toU32 (.finite q) = 0 := by
  have ht : ratTrunc q ≤ 0 := by
    unfold ratTrunc
    rw [if_pos hq]
    have h0 : (0:Int) ≤ ⌊-q⌋ := Int.floor_nonneg.mpr (by linarith)
    omega
  simp only [F64.toU32]
  rcases lt_or_eq_of_le ht with h | h
  · rw [if_pos h]
  · rw [if_neg (by omega), if_neg (by unfold F64.U32_MAX; omega), h]
    rfl

/-- The `as u32` cast of NaN is 0. -/
theorem toU32_nan : F64.toU32 .nan = 0 := rfl

/-- Values of distinct variants never compare equal. -/
theorem valueEq_of_ne_tag (v w : Value) (h : Value.tag v ≠ Value.tag w) :
    valueEq v w = false := by
  cases v <;> cases w <;> simp_all [valueEq, Value.tag]

/-- `Vec<Value>` equality is deep pointwise equality. -/
theorem valueListEq_iff (xs ys : List Value) :
    valueListEq xs ys = true ↔
      List.Forall₂ (fun a b => valueEq a b = true) xs ys := by
  induction xs generalizing ys with
  | nil => cases ys <;> simp [valueListEq]
  | cons a ta ih => cases ys <;> simp [valueListEq, ih]

/-- C1: the claim says the pipeline never panics the host, but the cited core
operations do panic: `Value + Value` on a Number and a String hits
`unreachable!("Cannot add non-numbers and non-strings")`, negating a
non-Number and converting `Nil` to bool hit `unreachable!()`, and
`Stack::pop` on an empty stack hits `expect("Stack should not be empty")`.
This theorem evaluates the code at those failing inputs. -/
theorem pipeline_core_ops_panic :
    Value.add (.Number (.finite 1)) (.String ("x")) =
      .panicked ("Cannot add non-numbers and non-strings") ∧
    Value.neg (.String ("s")) = .panicked unreachableMsg ∧
    Value.toBool .Nil = .panicked unreachableMsg ∧
    Stack.pop (Stack.new Value) = .panicked ("Stack should not be empty") :=
  ⟨rfl, rfl, rfl, rfl⟩

/-- C2 counterexample: at `Number(1.0) + String("x")` the `+` operation does
not raise a runtime type error (no error value exists on this path); it
panics the host via `unreachable!`. -/
theorem add_mixed_not_type_error :
    Value.add (.Number (.finite 1)) (.String ("x")) =
      .panicked ("Cannot add non-numbers and non-strings") ∧
    (∃ m, Value.add (.Number (.finite 1)) (.String ("x")) = .panicked m) :=
  ⟨rfl, ⟨_, rfl⟩⟩

/-- C2 amended: `+` returns the sum for two Numbers, concatenation for two
Strings, and concatenation (left then right) for two Tuples; for every other
operand combination it PANICS via `unreachable!` instead of raising a
runtime type error. -/
theorem add_dispatch_spec :
    (∀ a b : F64, Value.add (.Number a) (.Number b) = .ok (.Number (F64.add a b))) ∧
    (∀ s t : String, Value.add (.String s) (.String t) = .ok (.String (s ++ t))) ∧
    (∀ xs ys : List Value, Value.add (.Tuple xs) (.Tuple ys) = .ok (.Tuple (xs ++ ys))) ∧
    (∀ a b : Value, specAddDefined a b = false →
      Value.add a b = .panicked ("Cannot add non-numbers and non-strings")) := by
  refine ⟨fun a b => rfl, fun s t => rfl, fun xs ys => rfl, fun a b h => ?_⟩
  cases a <;> cases b <;> simp_all [specAddDefined, Value.add]

/-- C2 witness: the amended dispatch at concrete inputs. -/
theorem add_dispatch_spec_witness :
    Value.add (.Number (.finite 2)) (.Number (.finite 3)) =
      .ok (.Number (F64.add (.finite 2) (.finite 3))) ∧
    specAddDefined (.Number (.finite 1)) (.String ("x")) = false ∧
    Value.add (.Number (.finite 1)) (.String ("x")) =
      .panicked ("Cannot add non-numbers and non-strings") :=
  ⟨add_dispatch_spec.1 _ _, by decide,
   add_dispatch_spec.2.2.2 _ _ (by decide)⟩

/-- C3 counterexample: two `Map` values with identical key-value pairs
compare UNEQUAL — `impl PartialEq for ValueMap` is constantly false. -/
theorem map_equality_false_counterexample :
    valueEq (.Map (.mk [(("k" : String), Value.Nil)]))
      (.Map (.mk [(("k" : String), Value.Nil)])) = false := by
  simp [valueEq]

/-- C3 amended: equality across distinct variants is false; two Numbers use
IEEE equality (NaN is not equal to NaN); Lists and Tuples compare by deep
pointwise structural equality; but two Maps NEVER compare equal, even with
equal key-value pairs. -/
theorem value_equality_spec :
    (∀ v w : Value, Value.tag v ≠ Value.tag w → valueEq v w = false) ∧
    (∀ q r : ℚ, valueEq (.Number (.finite q)) (.Number (.finite r)) = decide (q = r)) ∧
    valueEq (.Number .nan) (.Number .nan) = false ∧
    (∀ xs ys : List Value, (valueEq (.List xs) (.List ys) = true ↔
      List.Forall₂ (fun a b => valueEq a b = true) xs ys)) ∧
    (∀ xs ys : List Value, (valueEq (.Tuple xs) (.Tuple ys) = true ↔
      List.Forall₂ (fun a b => valueEq a b = true) xs ys)) ∧
    (∀ m m' : ValueMap, valueEq (.Map m) (.Map m') = false) := by
  refine ⟨valueEq_of_ne_tag, fun q r => ?_, ?_, fun xs ys => ?_, fun xs ys => ?_,
    fun m m' => ?_⟩
  · simp [valueEq, F64.beq]
    rfl
  · simp [valueEq, F64.beq]
  · rw [show valueEq (.List xs) (.List ys) = valueListEq xs ys by simp [valueEq]]
    exact valueListEq_iff xs ys
  · rw [show valueEq (.Tuple xs) (.Tuple ys) = valueListEq xs ys by simp [valueEq]]
    exact valueListEq_iff xs ys
  · cases m; cases m'; simp [valueEq]

/-- C3 witness: the variant-mismatch case at a concrete input. -/
theorem value_equality_spec_witness :
    valueEq .Nil .Unit = false ∧
    valueEq (.Map (.mk [])) (.Map (.mk [])) = false :=
  ⟨value_equality_spec.1 .Nil .Unit (by decide),
   value_equality_spec.2.2.2.2.2 (.mk []) (.mk [])⟩

/-- C4 counterexample: in the richer table (`src/common/opcode.rs`, the one
with `Call`, `List`, `Loop`) `Halt` encodes as byte 28, not 29 — it is the
29th variant, so its zero-based `repr(u8)` discriminant is 28. -/
theorem opcode_halt_not_29 :
    Opcode.toU8 .Halt = 28 ∧ (28 : Nat) ≠ 29 ∧ SrcOpcode.Opcode.toU8 .Halt = 7 :=
  ⟨rfl, by decide, rfl⟩

/-- C4 amended: the two opcode tables disagree on encoding — the richer
table encodes `Halt` as 28 (not 29) while the simpler table encodes it as 7;
they agree on the shared prefix `Const..Div` but already diverge at
`Negate`. -/
theorem opcode_tables_disagree :
    Opcode.toU8 .Halt = 28 ∧
    SrcOpcode.Opcode.toU8 .Halt = 7 ∧
    Opcode.toU8 .Halt ≠ SrcOpcode.Opcode.toU8 .Halt ∧
    Opcode.toU8 .Const = SrcOpcode.Opcode.toU8 .Const ∧
    Opcode.toU8 .Add = SrcOpcode.Opcode.toU8 .Add ∧
    Opcode.toU8 .Sub = SrcOpcode.Opcode.toU8 .Sub ∧
    Opcode.toU8 .Mul = SrcOpcode.Opcode.toU8 .Mul ∧
    Opcode.toU8 .Div = SrcOpcode.Opcode.toU8 .Div ∧
    Opcode.toU8 .Negate ≠ SrcOpcode.Opcode.toU8 .Negate ∧
    Opcode.toU8 .SetGlobal ≠ SrcOpcode.Opcode.toU8 .SetGlobal := by
  refine ⟨rfl, rfl, by decide, rfl, rfl, rfl, rfl, rfl, by decide, by decide⟩

/-- C5: whenever the richer lexer scans the lexeme `<=` it produces a token
whose value is `<=` but whose type is the `>=` symbol form, and for a lone
`<` a token whose value is `<` but whose type is the `>` symbol form. -/
theorem lexer_swaps_lt_tokens :
    (∀ rest : List Char, tokenize ('<' :: '=' :: rest) =
      (tokenize rest).map (Token.mk ("<=") (.Symbol (">=")) :: ·)) ∧
    (∀ rest : List Char, rest.head? ≠ some '=' →
      tokenize ('<' :: rest) =
        (tokenize rest).map (Token.mk ("<") (.Symbol (">")) :: ·)) := by
  refine ⟨fun rest => by simp [tokenize], fun rest h => ?_⟩
  rcases rest with _ | ⟨c, t⟩
  · simp [tokenize, Except.map]
  · simp only [List.head?] at h
    have hc : c ≠ '=' := fun hh => h (by rw [hh])
    rw [tokenize]
    simp [hc]

/-- C5 witness: the swap at concrete inputs. -/
theorem lexer_swaps_lt_tokens_witness :
    (([] : List Char).head? ≠ some '=') ∧
    tokenize ('<' :: '=' :: []) =
      .ok [Token.mk ("<=") (.Symbol (">=")), Token.mk ("<eof>") .Eof] ∧
    tokenize ('<' :: []) =
      .ok [Token.mk ("<") (.Symbol (">")), Token.mk ("<eof>") .Eof] := by
  refine ⟨by simp, ?_, ?_⟩
  · rw [lexer_swaps_lt_tokens.1 []]
    simp [tokenize, Except.map]
  · rw [lexer_swaps_lt_tokens.2 [] (by simp)]
    simp [tokenize, Except.map]

/-- C6 counterexample: `Closure::wrap` of a Function with one capture
descriptor yields a Closure with zero captures, so the lengths differ. -/
theorem closure_wrap_drops_captures :
    (ClosureV.wrap (FunctionV.mk ("f") 0 [] [] [Captured.Local 0])).captures.length = 0 ∧
    (FunctionV.mk ("f") 0 [] [] [Captured.Local 0]).captures.length = 1 ∧
    (0 : Nat) ≠ 1 :=
  ⟨rfl, rfl, by decide⟩

/-- C6 amended: the provided constructors always produce an EMPTY capture
list, so a wrapped Closure satisfies the stated invariant exactly when its
Function has no capture descriptors; `Closure::empty` does satisfy it. -/
theorem closure_wrap_empty_captures :
    (∀ f : FunctionV, (ClosureV.wrap f).captures = []) ∧
    (∀ f : FunctionV,
      ((ClosureV.wrap f).captures.length = f.captures.length ↔ f.captures = [])) ∧
    ClosureV.empty.captures.length = ClosureV.empty.function.captures.length := by
  refine ⟨fun f => rfl, fun f => ?_, rfl⟩
  show ([] : List Upvalue).length = f.captures.length ↔ f.captures = []
  simp [eq_comm, List.length_eq_zero]

/-- C7 counterexample: `2^64` has zero fractional part, but the display arm
writes the saturated `i64` value `9223372036854775807`, not `2^64` — the
claim that it "writes n in integer form" fails beyond the `i64` range. -/
theorem display_large_number_saturates :
    displayNumber (.finite 18446744073709551616) = .intForm 9223372036854775807 ∧
    (9223372036854775807 : Int) ≠ 18446744073709551616 := by
  constructor
  · rw [displayNumber_finite]
    norm_num [F64.I64_MIN, F64.I64_MAX, max_def, min_def]
  · decide

/-- C7 amended: the display arm for `Number(n)` uses integer form exactly
when `n`'s fractional part is zero, but the integer written is `n` truncated
and SATURATED to the `i64` range — equal to `n` only within that range; NaN
and the infinities display in floating-point form. -/
theorem display_number_int_form_spec :
    (∀ q : ℚ, displayNumber (.finite q) =
      if q.den = 1 then .intForm (max F64.I64_MIN (min F64.I64_MAX q.num))
      else .floatForm (.finite q)) ∧
    displayNumber .nan = .floatForm .nan ∧
    (∀ s, displayNumber (.inf s) = .floatForm (.inf s)) :=
  ⟨displayNumber_finite, rfl, fun _ => rfl⟩

/-- C8 counterexample: converting `Nil` to bool does not yield `false`; it
panics via `unreachable!()`. -/
theorem truthiness_nil_panics :
    Value.toBool .Nil = .panicked unreachableMsg ∧
    Value.toBool .Nil ≠ .ok false := by
  exact ⟨rfl, by simp [Value.toBool]⟩

/-- C8 amended: the conversion returns `b` for `Boolean(b)` and PANICS via
`unreachable!()` for every other variant — including `Nil`, `Number(0)` and
the empty string; no variant other than `Boolean` converts at all. -/
theorem truthiness_spec :
    (∀ b, Value.toBool (.Boolean b) = .ok b) ∧
    (∀ v : Value, (∀ b, v ≠ .Boolean b) →
      Value.toBool v = .panicked unreachableMsg) := by
  refine ⟨fun b => rfl, fun v h => ?_⟩
  cases v <;> first | rfl | exact absurd rfl (h _)

/-- C8 witness: the amended conversion at concrete inputs. -/
theorem truthiness_spec_witness :
    Value.toBool (.Boolean true) = .ok true ∧
    Value.toBool .Nil = .panicked unreachableMsg :=
  ⟨truthiness_spec.1 true,
   truthiness_spec.2 .Nil (fun _ h => Value.noConfusion h)⟩

/-- C9: `Instance::get_field` returns `Nil` for an absent field, a copy of
the stored value for a present field, and never consults the class — the
result is invariant under replacing the instance's class. -/
theorem get_field_spec :
    ∀ (i : InstanceV) (name : String),
    (hashMapGet i.fields name = none → InstanceV.get_field i name = .Nil) ∧
    (∀ v, hashMapGet i.fields name = some v → InstanceV.get_field i name = v) ∧
    (∀ c', InstanceV.get_field (.mk c' i.fields) name = InstanceV.get_field i name) := by
  intro i name
  refine ⟨fun h => ?_, fun v h => ?_, fun c' => ?_⟩
  · simp [InstanceV.get_field, h]
  · simp [InstanceV.get_field, h]
  · simp [InstanceV.get_field, InstanceV.fields]

/-- C9 witness: field lookup on a concrete instance. -/
theorem get_field_spec_witness :
    InstanceV.get_field
      (InstanceV.mk (ClassV.mk ("C") [] [] [] none) [(("x" : String), Value.Unit)]) ("y") = .Nil ∧
    InstanceV.get_field
      (InstanceV.mk (ClassV.mk ("C") [] [] [] none) [(("x" : String), Value.Unit)]) ("x") = .Unit :=
  ⟨(get_field_spec _ _).1 rfl, (get_field_spec _ _).2.1 Value.Unit rfl⟩

/-- C10: list indexing with an `f64` goes through the saturating `as u32`
cast: every negative index and every NaN index is converted to 0 and
accesses element 0 (no IndexOutOfRange error on a nonempty list). -/
theorem index_f64_saturating_spec :
    (∀ q : ℚ, q < 0 → F64.toU32 (.finite q) = 0) ∧
    F64.toU32 .nan = 0 ∧
    (∀ (xs : List Value) (v : Value) (q : ℚ), q < 0 → xs.get? 0 = some v →
      Value.indexF64 (.List xs) (.finite q) = .ok v) ∧
    (∀ (xs : List Value) (v : Value), xs.get? 0 = some v →
      Value.indexF64 (.List xs) .nan = .ok v) := by
  refine ⟨toU32_neg, toU32_nan, fun xs v q hq hv => ?_, fun xs v hv => ?_⟩
  · rw [List.get?_eq_getElem?] at hv
    simp [Value.indexF64, toU32_neg q hq, hv]
  · rw [List.get?_eq_getElem?] at hv
    simp [Value.indexF64, toU32_nan, hv]

/-- C10 witness: indexing a concrete one-element list at `-1.0` and NaN. -/
theorem index_f64_saturating_spec_witness :
    ((-1 : ℚ) < 0) ∧
    ([Value.Nil].get? 0 = some Value.Nil) ∧
    Value.indexF64 (.List [Value.Nil]) (.finite (-1)) = .ok Value.Nil ∧
    Value.indexF64 (.List [Value.Nil]) .nan = .ok Value.Nil :=
  ⟨by norm_num, rfl,
   index_f64_saturating_spec.2.2.1 _ _ _ (by norm_num) rfl,
   index_f64_saturating_spec.2.2.2 _ _ rfl⟩
